import Mathlib

/-!
Verification development for `downloader.py`, a script that resolves the
track list of a public Spotify playlist by scraping the playlist page's
embedded `__NEXT_DATA__` JSON blob and then downloads an audio rendition of
each track with an external tool.

The Python source is shallowly embedded: Python `str` values become Lean
`String`, with the `str` methods used by the source (`strip`, `lower`,
`startswith`, slicing, `in`) implemented explicitly over `String.data`;
parsed JSON values become the inductive `Json`; the filesystem and the
external download tool become explicit state threaded through
`download_tracks`; code that can raise returns `Except`/`Option`.
-/

namespace SpotDl

/-! ### Python string primitives used by the source -/

/-- Python `s.strip()`: remove leading and trailing whitespace. -/
def pyStrip (s : String) : String :=
  ⟨((s.data.dropWhile Char.isWhitespace).reverse.dropWhile Char.isWhitespace).reverse⟩

/-- Python `s.lower()`. -/
def pyLower (s : String) : String :=
  ⟨s.data.map Char.toLower⟩

/-- Python `s.startswith(p)`. -/
def pyStartsWith (s p : String) : Bool :=
  p.data.isPrefixOf s.data

/-- Python slicing `s[:n]`. -/
def pyTake (n : Nat) (s : String) : String :=
  ⟨s.data.take n⟩

/-- Helper for Python substring containment: does `needle` occur as a
contiguous run inside the list? -/
def hasSub (needle : List Char) : List Char → Bool
  | [] => needle.isEmpty
  | c :: rest => needle.isPrefixOf (c :: rest) || hasSub needle rest

/-- Python `needle in s` on strings (substring containment). -/
def pyContains (s needle : String) : Bool :=
  hasSub needle.data s.data

/-! ### The JSON value model

`json.loads` produces nested dicts/lists/strings/numbers/booleans/None.
Python dicts preserve insertion order, so an object is an ordered list of
key/value pairs. -/

inductive Json where
  | null
  | bool (b : Bool)
  | num (n : Int)
  | str (s : String)
  | arr (items : List Json)
  | obj (fields : List (String × Json))

/-- Python `node.get(k)` on a dict: `none` when the key is missing (and on
non-dicts, where the source never calls it).  Later duplicate keys win,
matching how `json.loads` builds dicts. -/
def Json.get : Json → String → Option Json
  | .obj fields, k => fields.foldl (fun acc kv => if kv.1 = k then some kv.2 else acc) none
  | _, _ => none

/-- Python truthiness of a `node.get` result (`None`/missing, `0`, `""`,
empty containers and `False` are falsy). -/
def truthy : Option Json → Bool
  | none => false
  | some .null => false
  | some (.bool b) => b
  | some (.num n) => n != 0
  | some (.str s) => s != ""
  | some (.arr l) => !l.isEmpty
  | some (.obj f) => !f.isEmpty

/-- Python `a or b`. -/
def pyOr (a b : Option Json) : Option Json :=
  if truthy a then a else b

/-! ### `_walk` (src lines 56-63): depth-first generator yielding every
mapping node; dicts yield themselves then recurse into their values in
insertion order, lists recurse into their items, scalars yield nothing. -/

mutual

def walk : Json → List Json
  | .null => []
  | .bool _ => []
  | .num _ => []
  | .str _ => []
  | .arr items => walkElems items
  | .obj fields => .obj fields :: walkFields fields

def walkElems : List Json → List Json
  | [] => []
  | j :: rest => walk j ++ walkElems rest

def walkFields : List (String × Json) → List Json
  | [] => []
  | (_, v) :: rest => walk v ++ walkFields rest

end

/-! ### `Track` (src lines 24-38) -/

structure Track where
  title : String
  artists : List String
deriving DecidableEq, Repr

/-- `Track.query` (src lines 29-31). -/
def Track.query (t : Track) : String :=
  if t.artists.isEmpty then t.title
  else String.intercalate " " t.artists ++ " - " ++ t.title

/-- The character class of `INVALID_FILENAME_CHARS` (src line 18). -/
def isInvalidFilenameChar (c : Char) : Bool :=
  c = '\\' || c = '/' || c = ':' || c = '*' || c = '?' ||
  c = '"' || c = '<' || c = '>' || c = '|'

/-- `INVALID_FILENAME_CHARS.sub("_", raw)`: replace each character of the
class by an underscore. -/
def sanitizeChars (s : String) : String :=
  ⟨s.data.map (fun c => if isInvalidFilenameChar c then '_' else c)⟩

/-- `Track.filename` (src lines 33-38). -/
def Track.filename (t : Track) : String :=
  let artists := if t.artists.isEmpty then "Artista Desconhecido"
                 else String.intercalate ", " t.artists
  let raw := artists ++ " - " ++ t.title
  pyTake 180 (pyStrip (sanitizeChars raw))

/-! ### Playlist reference handling (src lines 41-53) -/

/-- `[a-zA-Z0-9]` of the regex on src line 43. -/
def isAlnumAZ (c : Char) : Bool :=
  ('a' ≤ c && c ≤ 'z') || ('A' ≤ c && c ≤ 'Z') || ('0' ≤ c && c ≤ '9')

/-- One anchored attempt of `re.search(r"playlist/([a-zA-Z0-9]+)", ...)` at
the head of `s`: the literal `playlist/` followed by a maximal nonempty
alphanumeric run (the capture group). -/
def matchPlaylistAt (s : List Char) : Option (List Char) :=
  if "playlist/".data.isPrefixOf s then
    let cap := (s.drop 9).takeWhile isAlnumAZ
    if cap.isEmpty then none else some cap
  else none

/-- `re.search` semantics: try each position left to right, first success
wins. -/
def searchPlaylistId : List Char → Option (List Char)
  | [] => none
  | c :: rest =>
    match matchPlaylistAt (c :: rest) with
    | some cap => some cap
    | none => searchPlaylistId rest

/-- `extract_playlist_id` (src lines 41-47); the `ValueError` branch becomes
`Except.error`. -/
def extract_playlist_id (ref : String) : Except String String :=
  if pyContains ref "spotify.com/playlist/" then
    match searchPlaylistId ref.data with
    | some cap => .ok ⟨cap⟩
    | none => .error "Não foi possível extrair o ID da playlist da URL fornecida."
  else .ok ref

/-- `normalize_playlist_url` (src lines 50-53). -/
def normalize_playlist_url (ref : String) : Except String String :=
  if pyStartsWith ref "http://" || pyStartsWith ref "https://" then .ok ref
  else (extract_playlist_id ref).map
    (fun i => "https://open.spotify.com/playlist/" ++ i)

/-! ### `_extract_tracks_from_next_data` (src lines 66-111)

`artists` is computed before the `uri` filter; the only statement in the
loop body that can raise is iterating `items` when the dict-shaped
`artists` field carries a non-iterable `items` value (`TypeError`), so the
per-node step is three-valued: error, skip, or a contributed track. -/

/-- Body of the `for artist in items` loop in the dict branch
(src lines 83-87): entries must be dicts with a dict `profile` whose `name`
is a string with nonempty strip. -/
def artistFromProfileItem (a : Json) : Option String :=
  match a with
  | .obj _ =>
    match a.get "profile" with
    | some (.obj pf) =>
      match (Json.obj pf).get "name" with
      | some (.str s) => if pyStrip s = "" then none else some (pyStrip s)
      | _ => none
    | _ => none
  | _ => none

/-- Body of the `for artist in artists_data` loop in the list branch
(src lines 89-95): dict entries contribute their string `name`, string
entries contribute themselves; blank names are discarded. -/
def artistFromListEntry (a : Json) : Option String :=
  match a with
  | .obj _ =>
    match a.get "name" with
    | some (.str s) => if pyStrip s = "" then none else some (pyStrip s)
    | _ => none
  | .str s => if pyStrip s = "" then none else some (pyStrip s)
  | _ => none

/-- Src lines 80-95, computing the `artists` list from `node.get("artists")`.
`none` models the `TypeError` Python raises when the dict branch's `items`
value is not iterable; iterating a dict yields its string keys and iterating
a string yields its characters, neither of which passes the
`isinstance(artist, dict)` guard, so those cases contribute nothing. -/
def computeArtists (artistsData : Option Json) : Option (List String) :=
  match artistsData with
  | some (.obj fields) =>
    match (Json.obj fields).get "items" with
    | none => some []
    | some (.arr l) => some (l.filterMap artistFromProfileItem)
    | some (.obj _) => some []
    | some (.str _) => some []
    | some _ => none
  | some (.arr l) => some (l.filterMap artistFromListEntry)
  | _ => some []

/-- One iteration of the node loop (src lines 69-109). `none` is a raised
`TypeError`; `some none` is a `continue`; `some (some t)` stores `t` under
its deduplication key. -/
def trackOfNode (node : Json) : Option (Option Track) :=
  match node with
  | .obj _ =>
    match pyOr (node.get "name") (node.get "title") with
    | some (.str name) =>
      match computeArtists (node.get "artists") with
      | none => none
      | some artists =>
        if (match node.get "uri" with
            | some (.str u) => !pyStartsWith u "spotify:track:"
            | _ => false) then some none
        else if artists.isEmpty then some none
        else if pyStrip name = "" then some none
        else some (some ⟨pyStrip name, artists⟩)
    | _ => some none
  | _ => some none

/-- The deduplication key (src line 108). -/
def trackKey (t : Track) : String × List String :=
  (pyLower t.title, t.artists.map pyLower)

/-- Python `found[key] = track` on an insertion-ordered dict: replace in
place when the key is present, else append. -/
def upsert (m : List ((String × List String) × Track))
    (k : String × List String) (t : Track) :
    List ((String × List String) × Track) :=
  if m.any (fun kv => decide (kv.1 = k)) then
    m.map (fun kv => if kv.1 = k then (k, t) else kv)
  else m ++ [(k, t)]

/-- The node loop folded over the walk order, threading the `found` dict;
`none` when some node raises. -/
def runNodes : List Json → List ((String × List String) × Track) →
    Option (List ((String × List String) × Track))
  | [], m => some m
  | n :: rest, m =>
    match trackOfNode n with
    | none => none
    | some none => runNodes rest m
    | some (some t) => runNodes rest (upsert m (trackKey t) t)

/-- `_extract_tracks_from_next_data` (src lines 66-111):
`list(found.values())`. -/
def extract_tracks_from_next_data (nextData : Json) : Option (List Track) :=
  (runNodes (walk nextData) []).map (fun m => m.map Prod.snd)

/-- The track a node contributes to the `found` dict, if any. -/
def contribOfNode (n : Json) : Option Track :=
  match trackOfNode n with
  | some (some t) => some t
  | _ => none

/-- All contributions of a document in walk order (with multiplicity,
before deduplication). -/
def contribs (d : Json) : List Track :=
  (walk d).filterMap contribOfNode

/-- First occurrences of a key sequence, in order, skipping keys already in
`seen`. -/
def firstOccur (seen : List (String × List String)) :
    List (String × List String) → List (String × List String)
  | [] => []
  | k :: rest =>
    if k ∈ seen then firstOccur seen rest
    else k :: firstOccur (k :: seen) rest

/-- The tracks stored in the found-dict under key `k`, in storage order. -/
def valsAt (m : List ((String × List String) × Track))
    (k : String × List String) : List Track :=
  (m.filter (fun kv => decide (kv.1 = k))).map Prod.snd

/-- The tracks of `ts` whose deduplication key is `k`, in order. -/
def tracksAt (ts : List Track) (k : String × List String) : List Track :=
  ts.filter (fun t => decide (trackKey t = k))

/-- Invariant of the found-dict: every entry is stored under its own
track's key, and every key occurs at most once. -/
def goodMap (m : List ((String × List String) × Track)) : Prop :=
  (∀ kv ∈ m, kv.1 = trackKey kv.2) ∧ ∀ k, (valsAt m k).length ≤ 1

/-! ### Playlist-name resolution inside
`fetch_playlist_tracks_without_spotify_api` (src lines 148-156): the loop
breaks at the FIRST node whose `__typename` equals `"Playlist"` and whose
`name` is a string (empty or not); the stripped name is used unless it is
empty, in which case the fallback (the bare playlist id) is kept. -/

def isPlaylistHit (node : Json) : Bool :=
  (match node.get "__typename" with
   | some (.str t) => t = "Playlist"
   | _ => false) &&
  (match node.get "name" with
   | some (.str _) => true
   | _ => false)

def resolvePlaylistName (fallback : String) : List Json → String
  | [] => fallback
  | node :: rest =>
    if isPlaylistHit node then
      match node.get "name" with
      | some (.str s) => if pyStrip s = "" then fallback else pyStrip s
      | _ => fallback
    else resolvePlaylistName fallback rest

/-- The playlist name computed by src lines 148-156 for a parsed
`next_data` document, given the bare playlist id as fallback. -/
def playlistNameOf (nextData : Json) (fallback : String) : String :=
  resolvePlaylistName fallback (walk nextData)

/-- Modelled from the claim's words (C5), NOT from the source: the `name`
of the first walked node whose `__typename` equals `"Playlist"` and whose
`name` is a NON-EMPTY string, falling back to the bare playlist id when no
such node exists.  Used only to exhibit the divergence from the code. -/
def claimPlaylistName (nextData : Json) (fallback : String) : String :=
  match (walk nextData).find? (fun n =>
    (match n.get "__typename" with
     | some (.str t) => t = "Playlist"
     | _ => false) &&
    (match n.get "name" with
     | some (.str s) => !(s = "")
     | _ => false)) with
  | some n =>
    match n.get "name" with
    | some (.str s) => s
    | _ => fallback
  | none => fallback

/-- Modelled from the claim's words (C3), NOT from the source: the filename
with the literal `"Unknown Artist"` placeholder.  Used only to exhibit the
divergence from the code's fixed placeholder string. -/
def claimFilename (t : Track) : String :=
  let artists := if t.artists.isEmpty then "Unknown Artist"
                 else String.intercalate ", " t.artists
  pyTake 180 (pyStrip (sanitizeChars (artists ++ " - " ++ t.title)))

/-! ### `download_tracks` (src lines 161-192)

The filesystem of the output directory is the list of file names present;
the external tool is a function from the 1-based enumeration index and the
search directive to `none` (success, which materialises
`<filename>.mp3`) or `some err` (a raised `DownloadError` with message
`err`, caught at the per-item boundary).  The emitted events record, per
track and in order, what the loop body did. -/

inductive DlEvent where
  | skipped (index : Nat) (file : String)
  | downloaded (index : Nat) (query : String)
  | failed (index : Nat) (query : String) (err : String)
deriving DecidableEq, Repr

def download_tracks (tool : Nat → String → Option String) :
    List String → Nat → List Track → List String × List DlEvent
  | fs, _, [] => (fs, [])
  | fs, i, tr :: rest =>
    let target := tr.filename ++ ".mp3"
    if fs.contains target then
      let r := download_tracks tool fs (i + 1) rest
      (r.1, .skipped i target :: r.2)
    else
      match tool i ("ytsearch1:" ++ tr.query ++ " audio") with
      | none =>
        let r := download_tracks tool (fs ++ [target]) (i + 1) rest
        (r.1, .downloaded i tr.query :: r.2)
      | some err =>
        let r := download_tracks tool fs (i + 1) rest
        (r.1, .failed i tr.query err :: r.2)

/-! ### `main` (src lines 212-232) -/

def errorMessageIntro : String :=
  "Erro ao obter playlist do Spotify sem API oficial: "

def noTracksMessage : String :=
  "Nenhuma faixa encontrada. A playlist pode ser privada ou o formato da página mudou."

/-- The lines the download loop prints for one event (src lines 182, 186,
192). -/
def eventMessages : DlEvent → List String
  | .skipped i f => ["[" ++ toString i ++ "] Já existe, pulando: " ++ f]
  | .downloaded i q => ["[" ++ toString i ++ "] Baixando: " ++ q]
  | .failed i q err =>
    ["[" ++ toString i ++ "] Baixando: " ++ q,
     "[" ++ toString i ++ "] Falha ao baixar " ++ q ++ ": " ++ err]

/-- `main` as a function of the resolution outcome (the `try`/`except`
around `fetch_playlist_tracks_without_spotify_api`), the external tool and
the pre-existing output-directory contents: returns the process exit code
and the printed lines. -/
def mainModel (fetch : Except String (String × List Track))
    (tool : Nat → String → Option String) (fs : List String) :
    Nat × List String :=
  match fetch with
  | .error e => (1, [errorMessageIntro ++ e])
  | .ok (name, tracks) =>
    if tracks.isEmpty then (0, [noTracksMessage])
    else
      let r := download_tracks tool fs 1 tracks
      (0, ["Playlist: " ++ name, "Total de músicas: " ++ toString tracks.length]
          ++ (r.2.map eventMessages).flatten ++ ["Download concluído."])

/-! ## Helper lemmas -/

theorem mem_of_mem_pyStrip {c : Char} {s : String} (h : c ∈ (pyStrip s).data) :
    c ∈ s.data := by
  unfold pyStrip at h
  rw [List.mem_reverse] at h
  have h2 := (List.dropWhile_sublist Char.isWhitespace).mem h
  rw [List.mem_reverse] at h2
  exact (List.dropWhile_sublist Char.isWhitespace).mem h2

theorem sanitize_no_invalid {c : Char} {s : String}
    (h : c ∈ (sanitizeChars s).data) : isInvalidFilenameChar c = false := by
  rcases List.mem_map.1 h with ⟨c0, _, rfl⟩
  by_cases hb : isInvalidFilenameChar c0 = true
  · simp [hb]
    decide
  · simp [hb]

theorem hasSub_mem {needle hay : List Char} (h : hasSub needle hay = true) :
    ∀ c ∈ needle, c ∈ hay := by
  induction hay with
  | nil =>
    unfold hasSub at h
    rw [List.isEmpty_iff] at h
    subst h
    intro c hc
    cases hc
  | cons a rest ih =>
    unfold hasSub at h
    rcases Bool.or_eq_true_iff.1 h with h1 | h2
    · exact fun c hc => (List.isPrefixOf_iff_prefix.1 h1).subset hc
    · exact fun c hc => List.mem_cons_of_mem a (ih h2 c hc)

theorem takeWhile_left_of_all {l₁ l₂ : List Char} (h1 : l₁.all isAlnumAZ = true)
    (h2 : ∀ c, l₂.head? = some c → isAlnumAZ c = false) :
    (l₁ ++ l₂).takeWhile isAlnumAZ = l₁ := by
  induction l₁ with
  | nil =>
    simp only [List.nil_append]
    cases l₂ with
    | nil => rfl
    | cons c rest => simp [List.takeWhile, h2 c rfl]
  | cons a as ih =>
    simp only [List.all_cons, Bool.and_eq_true] at h1
    simp [List.takeWhile, h1.1, ih h1.2]

/-! ## Claim C3 -/

/-- C3: the derived filename is a pure deterministic function of
(artists, title): the artists joined by ", " (or the fixed placeholder when
the artist list is empty) + " - " + title, with every invalid filename
character replaced by an underscore, stripped and truncated; it never
exceeds 180 characters and contains no invalid character. -/
theorem filename_pure_sanitized_bounded (t : Track) :
    t.filename.data.length ≤ 180 ∧
    t.filename.data.filter isInvalidFilenameChar = [] ∧
    t.filename = pyTake 180 (pyStrip (sanitizeChars
      ((if t.artists.isEmpty then "Artista Desconhecido"
        else String.intercalate ", " t.artists) ++ " - " ++ t.title))) := by
  refine ⟨?_, ?_, rfl⟩
  · show (List.take 180 _).length ≤ 180
    rw [List.length_take]
    exact min_le_left _ _
  · rw [List.filter_eq_nil_iff]
    intro c hc
    have h1 : c ∈ (pyStrip (sanitizeChars _)).data := List.mem_of_mem_take hc
    have h2 := mem_of_mem_pyStrip h1
    simp [sanitize_no_invalid h2]

/-- C3 counterexample: the claim names the placeholder string
"Unknown Artist", but the code's fixed placeholder is the Portuguese string
"Artista Desconhecido", so the claimed filename differs from the computed
one on every track with an empty artist list. -/
theorem filename_placeholder_counterexample :
    Track.filename ⟨"Song", []⟩ = "Artista Desconhecido - Song" ∧
    claimFilename ⟨"Song", []⟩ = "Unknown Artist - Song" ∧
    Track.filename ⟨"Song", []⟩ ≠ claimFilename ⟨"Song", []⟩ := by
  refine ⟨by decide, by decide, by decide⟩

/-! ## Claim C6 -/

/-- C6: main exits with code 1 exactly on resolution failure, and with code
0 on success, including the zero-track case, which is reported with its own
distinct message rather than as an error. -/
theorem main_exit_codes (tool : Nat → String → Option String) (fs : List String) :
    (∀ e, mainModel (.error e) tool fs = (1, [errorMessageIntro ++ e])) ∧
    (∀ name ts, (mainModel (.ok (name, ts)) tool fs).1 = 0) ∧
    (∀ name, mainModel (.ok (name, [])) tool fs = (0, [noTracksMessage])) := by
  refine ⟨fun e => rfl, fun name ts => ?_, fun name => rfl⟩
  cases ts <;> rfl

/-! ## Claim C2 -/

theorem album_uri_not_track (rest : String) :
    pyStartsWith ("spotify:album:" ++ rest) "spotify:track:" = false := by
  unfold pyStartsWith
  rw [String.data_append]
  simp [List.isPrefixOf]

/-- C2 (amended): the uri filter applies to STRING-valued `uri` fields: a
node whose `uri` is a string that does not start with "spotify:track:"
never contributes a track; in particular a node whose `uri` is
"spotify:album:..." never contributes a track. -/
theorem uri_filter_requires_track_string :
    (∀ (node : Json) (u : String), node.get "uri" = some (Json.str u) →
        pyStartsWith u "spotify:track:" = false → contribOfNode node = none) ∧
    (∀ (node : Json) (rest : String),
        node.get "uri" = some (Json.str ("spotify:album:" ++ rest)) →
        contribOfNode node = none) := by
  have main : ∀ (node : Json) (u : String), node.get "uri" = some (Json.str u) →
      pyStartsWith u "spotify:track:" = false → contribOfNode node = none := by
    intro node u huri hpre
    cases node with
    | obj fields =>
      rcases hpy : pyOr ((Json.obj fields).get "name") ((Json.obj fields).get "title")
        with _ | v
      · simp [contribOfNode, trackOfNode, hpy]
      · cases v with
        | str name =>
          rcases hca : computeArtists ((Json.obj fields).get "artists") with _ | artists
          · simp [contribOfNode, trackOfNode, hpy, hca]
          · simp [contribOfNode, trackOfNode, hpy, hca, huri, hpre]
        | null => simp [contribOfNode, trackOfNode, hpy]
        | bool b => simp [contribOfNode, trackOfNode, hpy]
        | num n => simp [contribOfNode, trackOfNode, hpy]
        | arr l => simp [contribOfNode, trackOfNode, hpy]
        | obj f => simp [contribOfNode, trackOfNode, hpy]
    | null => rfl
    | bool b => rfl
    | num n => rfl
    | str s => rfl
    | arr l => rfl
  exact ⟨main, fun node rest huri => main node _ huri (album_uri_not_track rest)⟩

/-- C2 witness: a concrete album node with name and artists fields is
skipped. -/
theorem uri_filter_requires_track_string_witness :
    contribOfNode (Json.obj [("name", Json.str "Album Name"),
      ("artists", Json.arr [Json.obj [("name", Json.str "X")]]),
      ("uri", Json.str "spotify:album:42")]) = none :=
  uri_filter_requires_track_string.2 _ "42" rfl

/-- C2 counterexample: the claim as stated quantifies over every node that
carries a `uri` field, but a node whose `uri` is the number 99 — which does
not start with "spotify:track:" — still contributes a track, because the
code only applies the filter to string uris. -/
theorem uri_filter_nonstring_counterexample :
    (Json.obj [("name", Json.str "Song"),
      ("artists", Json.arr [Json.obj [("name", Json.str "X")]]),
      ("uri", Json.num 99)]).get "uri" = some (Json.num 99) ∧
    (∀ s : String, (Json.obj [("name", Json.str "Song"),
      ("artists", Json.arr [Json.obj [("name", Json.str "X")]]),
      ("uri", Json.num 99)]).get "uri" ≠ some (Json.str s)) ∧
    contribOfNode (Json.obj [("name", Json.str "Song"),
      ("artists", Json.arr [Json.obj [("name", Json.str "X")]]),
      ("uri", Json.num 99)]) = some ⟨"Song", ["X"]⟩ ∧
    extract_tracks_from_next_data (Json.arr [Json.obj [("name", Json.str "Song"),
      ("artists", Json.arr [Json.obj [("name", Json.str "X")]]),
      ("uri", Json.num 99)]]) = some [⟨"Song", ["X"]⟩] := by
  refine ⟨rfl, ?_, by decide, by decide⟩
  intro s h
  rw [show (Json.obj [("name", Json.str "Song"),
      ("artists", Json.arr [Json.obj [("name", Json.str "X")]]),
      ("uri", Json.num 99)]).get "uri" = some (Json.num 99) from rfl] at h
  exact Json.noConfusion (Option.some.inj h)

/-! ## Claim C10 -/

/-- C10: a node whose `uri` field is present but not a string is NOT
filtered out: it still contributes a track whenever its resolved name is a
string with nonempty strip and its artist list is nonempty. -/
theorem nonstring_uri_still_contributes (fields : List (String × Json))
    (u : Json) (name : String) (artists : List String)
    (hname : pyOr ((Json.obj fields).get "name") ((Json.obj fields).get "title")
      = some (Json.str name))
    (hart : computeArtists ((Json.obj fields).get "artists") = some artists)
    (huri : (Json.obj fields).get "uri" = some u)
    (hstr : ∀ s, u ≠ Json.str s)
    (hA : artists ≠ []) (hT : pyStrip name ≠ "") :
    contribOfNode (Json.obj fields) = some ⟨pyStrip name, artists⟩ := by
  have hskip : (match (Json.obj fields).get "uri" with
      | some (Json.str u) => !pyStartsWith u "spotify:track:"
      | _ => false) = false := by
    rw [huri]
    cases u with
    | str s => exact absurd rfl (hstr s)
    | null => rfl
    | bool b => rfl
    | num n => rfl
    | arr l => rfl
    | obj f => rfl
  simp [contribOfNode, trackOfNode, hname, hart, hskip, List.isEmpty_iff, hA, hT]

/-- C10 witness: a node whose `uri` is the non-string value `[]` and whose
title and artist are taken from the `title` field and a plain-string artist
entry contributes a track. -/
theorem nonstring_uri_still_contributes_witness :
    contribOfNode (Json.obj [("title", Json.str " My Song "),
      ("artists", Json.arr [Json.str "Solo"]),
      ("uri", Json.arr [])]) = some ⟨"My Song", ["Solo"]⟩ :=
  nonstring_uri_still_contributes
    [("title", Json.str " My Song "), ("artists", Json.arr [Json.str "Solo"]),
     ("uri", Json.arr [])]
    (Json.arr []) " My Song " ["Solo"] rfl rfl rfl
    (fun s h => Json.noConfusion h) (by decide) (by decide)

/-! ## Claim C5 -/

/-- C5 counterexample: the code breaks at the FIRST node whose `__typename`
is "Playlist" and whose `name` is a string, even when that name is empty;
it does not search on for a later Playlist node with a nonempty name, as
the claim states.  On this document the claim predicts "Real" but the code
yields the fallback id. -/
theorem playlist_name_counterexample :
    claimPlaylistName (Json.arr
      [Json.obj [("__typename", Json.str "Playlist"), ("name", Json.str "")],
       Json.obj [("__typename", Json.str "Playlist"), ("name", Json.str "Real")]])
      "pid" = "Real" ∧
    playlistNameOf (Json.arr
      [Json.obj [("__typename", Json.str "Playlist"), ("name", Json.str "")],
       Json.obj [("__typename", Json.str "Playlist"), ("name", Json.str "Real")]])
      "pid" = "pid" ∧
    ("pid" : String) ≠ "Real" := by
  exact ⟨by decide, by decide, by decide⟩

/-- C5 (amended): the resolved playlist name is determined by the FIRST
walked node whose `__typename` equals "Playlist" and whose `name` is a
string: its stripped name when that is nonempty, the bare playlist id
otherwise; the bare playlist id is also used when no such node exists. -/
theorem playlist_name_first_string_hit (d : Json) (fb : String) :
    playlistNameOf d fb =
      match (walk d).find? isPlaylistHit with
      | none => fb
      | some n =>
        match n.get "name" with
        | some (.str s) => if pyStrip s = "" then fb else pyStrip s
        | _ => fb := by
  unfold playlistNameOf
  induction walk d with
  | nil => rfl
  | cons n rest ih =>
    by_cases h : isPlaylistHit n = true
    · rw [List.find?_cons_of_pos _ h]
      unfold resolvePlaylistName
      rw [if_pos h]
    · rw [List.find?_cons_of_neg _ (by simp [h])]
      unfold resolvePlaylistName
      rw [if_neg (by simp [h])]
      exact ih

/-! ## Claims C7 and C8: the download loop -/

/-- One-step unfolding of the download loop on a nonempty track list. -/
theorem download_tracks_cons (tool : Nat → String → Option String)
    (fs : List String) (i : Nat) (tr : Track) (rest : List Track) :
    download_tracks tool fs i (tr :: rest)
      = if fs.contains (tr.filename ++ ".mp3") then
          ((download_tracks tool fs (i + 1) rest).1,
           .skipped i (tr.filename ++ ".mp3")
             :: (download_tracks tool fs (i + 1) rest).2)
        else
          match tool i ("ytsearch1:" ++ tr.query ++ " audio") with
          | none =>
            ((download_tracks tool (fs ++ [tr.filename ++ ".mp3"]) (i + 1) rest).1,
             .downloaded i tr.query
               :: (download_tracks tool (fs ++ [tr.filename ++ ".mp3"]) (i + 1) rest).2)
          | some err =>
            ((download_tracks tool fs (i + 1) rest).1,
             .failed i tr.query err :: (download_tracks tool fs (i + 1) rest).2) := rfl

/-- The download loop never removes a file from the output directory. -/
theorem download_fs_mono (tool : Nat → String → Option String) :
    ∀ (ts : List Track) (fs : List String) (i : Nat) (x : String), x ∈ fs →
      x ∈ (download_tracks tool fs i ts).1 := by
  intro ts
  induction ts with
  | nil => intro fs i x hx; exact hx
  | cons tr rest ih =>
    intro fs i x hx
    rw [download_tracks_cons]
    by_cases hc : fs.contains (tr.filename ++ ".mp3") = true
    · simp only [hc, if_true]
      exact ih fs (i + 1) x hx
    · simp only [hc, if_false, Bool.false_eq_true]
      cases tool i ("ytsearch1:" ++ tr.query ++ " audio") with
      | none => exact ih _ (i + 1) x (List.mem_append_left _ hx)
      | some err => exact ih fs (i + 1) x hx

/-- Every track produces exactly one loop iteration. -/
theorem download_events_length (tool : Nat → String → Option String) :
    ∀ (ts : List Track) (fs : List String) (i : Nat),
      ((download_tracks tool fs i ts).2).length = ts.length := by
  intro ts
  induction ts with
  | nil => intro fs i; rfl
  | cons tr rest ih =>
    intro fs i
    rw [download_tracks_cons]
    by_cases hc : fs.contains (tr.filename ++ ".mp3") = true
    · simp only [hc, if_true, List.length_cons, ih]
    · simp only [hc, if_false, Bool.false_eq_true]
      cases tool i ("ytsearch1:" ++ tr.query ++ " audio") with
      | none => simp only [List.length_cons, ih]
      | some err => simp only [List.length_cons, ih]

/-- Each track either ends up present in the output directory or its
failure is logged with the track query. -/
theorem download_track_outcome (tool : Nat → String → Option String) :
    ∀ (ts : List Track) (fs : List String) (i : Nat) (t : Track), t ∈ ts →
      (t.filename ++ ".mp3") ∈ (download_tracks tool fs i ts).1 ∨
      ∃ j err, DlEvent.failed j t.query err ∈ (download_tracks tool fs i ts).2 := by
  intro ts
  induction ts with
  | nil => intro fs i t ht; cases ht
  | cons tr rest ih =>
    intro fs i t ht
    rw [download_tracks_cons]
    by_cases hc : fs.contains (tr.filename ++ ".mp3") = true
    · simp only [hc, if_true]
      rcases List.mem_cons.1 ht with rfl | hmem
      · exact Or.inl (download_fs_mono tool rest fs (i + 1) _ (List.elem_iff.mp hc))
      · rcases ih fs (i + 1) t hmem with h | ⟨j, err, hj⟩
        · exact Or.inl h
        · exact Or.inr ⟨j, err, List.mem_cons_of_mem _ hj⟩
    · simp only [hc, if_false, Bool.false_eq_true]
      cases tool i ("ytsearch1:" ++ tr.query ++ " audio") with
      | none =>
        rcases List.mem_cons.1 ht with rfl | hmem
        · exact Or.inl (download_fs_mono tool rest _ (i + 1) _
            (List.mem_append_right _ (List.mem_singleton_self _)))
        · rcases ih _ (i + 1) t hmem with h | ⟨j, err, hj⟩
          · exact Or.inl h
          · exact Or.inr ⟨j, err, List.mem_cons_of_mem _ hj⟩
      | some err =>
        rcases List.mem_cons.1 ht with rfl | hmem
        · exact Or.inr ⟨i, err, List.mem_cons_self _ _⟩
        · rcases ih fs (i + 1) t hmem with h | ⟨j, err2, hj⟩
          · exact Or.inl h
          · exact Or.inr ⟨j, err2, List.mem_cons_of_mem _ hj⟩

/-- C7: per-track download failures are isolated: every track produces
exactly one loop iteration (one event, so every other track is still
processed in order), every track either ends up present in the output
directory or has its failure logged together with its query, and the run
still exits 0 whenever resolution succeeded. -/
theorem download_per_track_isolation (tool : Nat → String → Option String)
    (fs : List String) (i : Nat) (ts : List Track) :
    ((download_tracks tool fs i ts).2).length = ts.length ∧
    (∀ t, t ∈ ts →
      (t.filename ++ ".mp3") ∈ (download_tracks tool fs i ts).1 ∨
      ∃ j err, DlEvent.failed j t.query err ∈ (download_tracks tool fs i ts).2) ∧
    (∀ name, (mainModel (Except.ok (name, ts)) tool fs).1 = 0) := by
  exact ⟨download_events_length tool ts fs i,
    fun t ht => download_track_outcome tool ts fs i t ht,
    fun name => by cases ts <;> rfl⟩

/-- C7 witness: with three tracks and a tool that fails exactly on the
second invocation, the loop emits three events, and the failed track is
logged with its query (or downloaded). -/
theorem download_per_track_isolation_witness :
    ((download_tracks (fun i _ => if i = 2 then some "boom" else none) [] 1
      [⟨"A", ["X"]⟩, ⟨"B", ["Y"]⟩, ⟨"C", ["Z"]⟩]).2).length = 3 ∧
    (((Track.mk "B" ["Y"]).filename ++ ".mp3")
        ∈ (download_tracks (fun i _ => if i = 2 then some "boom" else none) [] 1
          [⟨"A", ["X"]⟩, ⟨"B", ["Y"]⟩, ⟨"C", ["Z"]⟩]).1 ∨
      ∃ j err, DlEvent.failed j (Track.mk "B" ["Y"]).query err
        ∈ (download_tracks (fun i _ => if i = 2 then some "boom" else none) [] 1
          [⟨"A", ["X"]⟩, ⟨"B", ["Y"]⟩, ⟨"C", ["Z"]⟩]).2) :=
  ⟨(download_per_track_isolation (fun i _ => if i = 2 then some "boom" else none)
      [] 1 [⟨"A", ["X"]⟩, ⟨"B", ["Y"]⟩, ⟨"C", ["Z"]⟩]).1,
   (download_per_track_isolation (fun i _ => if i = 2 then some "boom" else none)
      [] 1 [⟨"A", ["X"]⟩, ⟨"B", ["Y"]⟩, ⟨"C", ["Z"]⟩]).2.1 ⟨"B", ["Y"]⟩ (by decide)⟩

/-- C8: when a track target file already exists before the track is
processed, the loop emits a skipped event for it, performs no download
invocation for it (the rest of the list is processed from the unchanged
filesystem), the existing file is still present at the end of the run, and
the run still exits 0. -/
theorem download_skip_existing (tool : Nat → String → Option String)
    (fs : List String) (i : Nat) (tr : Track) (rest : List Track)
    (h : (tr.filename ++ ".mp3") ∈ fs) :
    download_tracks tool fs i (tr :: rest)
      = ((download_tracks tool fs (i + 1) rest).1,
         DlEvent.skipped i (tr.filename ++ ".mp3")
           :: (download_tracks tool fs (i + 1) rest).2) ∧
    (tr.filename ++ ".mp3") ∈ (download_tracks tool fs i (tr :: rest)).1 ∧
    (∀ name, (mainModel (Except.ok (name, tr :: rest)) tool fs).1 = 0) := by
  have hc : fs.contains (tr.filename ++ ".mp3") = true := List.elem_iff.mpr h
  have heq : download_tracks tool fs i (tr :: rest)
      = ((download_tracks tool fs (i + 1) rest).1,
         DlEvent.skipped i (tr.filename ++ ".mp3")
           :: (download_tracks tool fs (i + 1) rest).2) := by
    rw [download_tracks_cons]
    simp only [hc, if_true]
  refine ⟨heq, ?_, fun name => rfl⟩
  rw [heq]
  exact download_fs_mono tool rest fs (i + 1) _ h

/-- C8 witness: a single track whose target file already exists is skipped
and the file survives the run. -/
theorem download_skip_existing_witness :
    download_tracks (fun _ _ => some "never called") ["X - A.mp3"] 1 [⟨"A", ["X"]⟩]
      = (["X - A.mp3"], [DlEvent.skipped 1 "X - A.mp3"]) ∧
    ("X - A.mp3" : String) ∈ (download_tracks (fun _ _ => some "never called")
      ["X - A.mp3"] 1 [⟨"A", ["X"]⟩]).1 := by
  have h := download_skip_existing (fun _ _ => some "never called")
    ["X - A.mp3"] 1 ⟨"A", ["X"]⟩ [] (by decide)
  exact ⟨h.1, h.2.1⟩

/-! ## Claim C4 -/

/-- C4: playlist-reference handling. (i) On alphanumeric bare IDs,
`extract_playlist_id` returns its input unchanged and is idempotent.
(ii) For every nonempty alphanumeric ID it recovers the ID from the
canonical URL regardless of any appended non-alphanumeric-initial
(e.g. query-string) suffix.  (iii) The ID extracted from the URL that
`normalize_playlist_url` builds from the bare ID agrees with the ID
extracted from the bare ID itself. -/
theorem extract_playlist_id_spec :
    (∀ ref : String, ref.data.all isAlnumAZ = true →
      extract_playlist_id ref = .ok ref ∧
      (extract_playlist_id ref).bind extract_playlist_id = extract_playlist_id ref) ∧
    (∀ id q : String, id.data ≠ [] → id.data.all isAlnumAZ = true →
      (∀ c, q.data.head? = some c → isAlnumAZ c = false) →
      extract_playlist_id ("https://open.spotify.com/playlist/" ++ id ++ q)
        = .ok id) ∧
    (∀ id : String, id.data ≠ [] → id.data.all isAlnumAZ = true →
      ∀ url, normalize_playlist_url id = .ok url →
        extract_playlist_id url = extract_playlist_id id) := by
  have bare : ∀ ref : String, ref.data.all isAlnumAZ = true →
      extract_playlist_id ref = .ok ref := by
    intro ref hall
    have hnc : pyContains ref "spotify.com/playlist/" = false := by
      rw [Bool.eq_false_iff]
      intro hsub
      have hdot : '.' ∈ ref.data :=
        hasSub_mem hsub '.' (by decide)
      exact absurd ((List.all_eq_true.1 hall) '.' hdot) (by decide)
    unfold extract_playlist_id
    rw [hnc]
    rfl
  have urlrec : ∀ id q : String, id.data ≠ [] → id.data.all isAlnumAZ = true →
      (∀ c, q.data.head? = some c → isAlnumAZ c = false) →
      extract_playlist_id ("https://open.spotify.com/playlist/" ++ id ++ q)
        = .ok id := by
    intro id q hne hall hq
    have hd : ("https://open.spotify.com/playlist/" ++ id ++ q).data
        = "https://open.spotify.com/playlist/".data ++ (id.data ++ q.data) := by
      simp [String.data_append]
    have hsub : pyContains ("https://open.spotify.com/playlist/" ++ id ++ q)
        "spotify.com/playlist/" = true := by
      unfold pyContains
      rw [hd]
      simp [hasSub, List.isPrefixOf]
    have hcap : (id.data ++ q.data).takeWhile isAlnumAZ = id.data :=
      takeWhile_left_of_all hall hq
    have hie : id.data.isEmpty = false := by
      cases h : id.data with
      | nil => exact absurd h hne
      | cons a l => rfl
    have hsearch : searchPlaylistId
        ("https://open.spotify.com/playlist/" ++ id ++ q).data = some id.data := by
      rw [hd]
      simp [searchPlaylistId, matchPlaylistAt, List.isPrefixOf, hcap, hie]
    unfold extract_playlist_id
    rw [hsub, hsearch]
    rfl
  refine ⟨fun ref hall => ⟨bare ref hall, by rw [bare ref hall]; exact bare ref hall⟩,
    urlrec, ?_⟩
  intro id hne hall url hurl
  have hhttp : pyStartsWith id "http://" = false := by
    rw [Bool.eq_false_iff]
    intro hpre
    have hcolon : ':' ∈ id.data :=
      (List.isPrefixOf_iff_prefix.1 hpre).subset (by decide)
    exact absurd ((List.all_eq_true.1 hall) ':' hcolon) (by decide)
  have hhttps : pyStartsWith id "https://" = false := by
    rw [Bool.eq_false_iff]
    intro hpre
    have hcolon : ':' ∈ id.data :=
      (List.isPrefixOf_iff_prefix.1 hpre).subset (by decide)
    exact absurd ((List.all_eq_true.1 hall) ':' hcolon) (by decide)
  unfold normalize_playlist_url at hurl
  rw [hhttp, hhttps] at hurl
  simp only [Bool.or_self, Bool.false_eq_true, if_false, bare id hall,
    Except.map_ok] at hurl
  have hurl2 : url = "https://open.spotify.com/playlist/" ++ id ++ "" := by
    cases hurl
    rw [String.append_empty]
  rw [hurl2, urlrec id "" hne hall (fun c hc => by cases hc), bare id hall]

/-- C4 witness: both the bare ID "37i9dQZF1" and the playlist URL carrying
it with a query-string suffix resolve to the same ID, and extraction is
idempotent on the bare ID. -/
theorem extract_playlist_id_spec_witness :
    extract_playlist_id "37i9dQZF1" = .ok "37i9dQZF1" ∧
    (extract_playlist_id "37i9dQZF1").bind extract_playlist_id
      = extract_playlist_id "37i9dQZF1" ∧
    extract_playlist_id ("https://open.spotify.com/playlist/" ++ "37i9dQZF1"
      ++ "?si=abc") = .ok "37i9dQZF1" := by
  have h1 := extract_playlist_id_spec.1 "37i9dQZF1" (by decide)
  have h2 := extract_playlist_id_spec.2.1 "37i9dQZF1" "?si=abc" (by decide)
    (by decide) ?_
  · exact ⟨h1.1, h1.2, h2⟩
  · intro c hc
    rw [show ("?si=abc" : String).data.head? = some '?' from rfl] at hc
    cases hc
    decide

/-! ## Claims C1 and C9: deduplication in the found-dict -/

theorem any_key_iff (m : List ((String × List String) × Track))
    (k : String × List String) :
    m.any (fun kv => decide (kv.1 = k)) = true ↔ k ∈ m.map Prod.fst := by
  rw [List.any_eq_true]
  constructor
  · rintro ⟨x, hxm, hxp⟩
    exact List.mem_map.2 ⟨x, hxm, of_decide_eq_true hxp⟩
  · intro hmem
    rcases List.mem_map.1 hmem with ⟨x, hxm, hfx⟩
    exact ⟨x, hxm, decide_eq_true hfx⟩

theorem getLast?_toList_of_short (l : List Track) (h : l.length ≤ 1) :
    l.getLast?.toList = l := by
  match l with
  | [] => rfl
  | [a] => rfl
  | a :: b :: rest => simp at h

theorem getLast?_append_cons (xs : List Track) (y : Track) (ys : List Track) :
    (xs ++ y :: ys).getLast? = (y :: ys).getLast? := by
  rw [List.getLast?_append]
  rcases h : (y :: ys).getLast? with _ | z
  · simp at h
  · rfl

theorem valsAt_upsert_self (m : List ((String × List String) × Track))
    (k : String × List String) (t : Track)
    (hlen : (valsAt m k).length ≤ 1) :
    valsAt (upsert m k t) k = [t] := by
  unfold upsert
  by_cases hany : m.any (fun kv => decide (kv.1 = k)) = true
  · rw [if_pos hany]
    unfold valsAt
    rw [List.filter_map]
    have h1 : m.filter ((fun kv => decide (kv.1 = k))
          ∘ (fun kv => if kv.1 = k then (k, t) else kv))
        = m.filter (fun kv => decide (kv.1 = k)) := by
      apply List.filter_congr
      intro x hx
      simp only [Function.comp_apply]
      by_cases hxk : x.1 = k
      · rw [if_pos hxk]
        exact decide_eq_decide.2 (by simp [hxk])
      · rw [if_neg hxk]
    rw [h1]
    unfold valsAt at hlen
    rw [List.length_map] at hlen
    rcases List.any_eq_true.1 hany with ⟨x, hxm, hxp⟩
    have hpos : 0 < (m.filter (fun kv => decide (kv.1 = k))).length :=
      List.length_pos.2 (List.ne_nil_of_mem (List.mem_filter.2 ⟨hxm, hxp⟩))
    have hL : (m.filter (fun kv => decide (kv.1 = k))).length = 1 :=
      le_antisymm hlen hpos
    rcases List.length_eq_one.1 hL with ⟨x₀, hx₀⟩
    rw [hx₀]
    have hx₀m : x₀ ∈ m.filter (fun kv => decide (kv.1 = k)) := by
      rw [hx₀]; exact List.mem_singleton_self x₀
    have hx₀k : x₀.1 = k := of_decide_eq_true (List.mem_filter.1 hx₀m).2
    simp [hx₀k]
  · rw [if_neg hany]
    unfold valsAt
    rw [List.filter_append]
    have h0 : m.filter (fun kv => decide (kv.1 = k)) = [] := by
      rw [List.filter_eq_nil_iff]
      intro x hx hp
      exact hany (List.any_eq_true.2 ⟨x, hx, hp⟩)
    rw [h0]
    simp

theorem valsAt_upsert_other (m : List ((String × List String) × Track))
    (k : String × List String) (t : Track) (q : String × List String)
    (hne : q ≠ k) :
    valsAt (upsert m k t) q = valsAt m q := by
  unfold upsert
  by_cases hany : m.any (fun kv => decide (kv.1 = k)) = true
  · rw [if_pos hany]
    unfold valsAt
    rw [List.filter_map]
    have h1 : m.filter ((fun kv => decide (kv.1 = q))
          ∘ (fun kv => if kv.1 = k then (k, t) else kv))
        = m.filter (fun kv => decide (kv.1 = q)) := by
      apply List.filter_congr
      intro x hx
      simp only [Function.comp_apply]
      by_cases hxk : x.1 = k
      · rw [if_pos hxk]
        exact decide_eq_decide.2 (by simp [hxk, hne])
      · rw [if_neg hxk]
    rw [h1, List.map_map]
    apply List.map_congr_left
    intro x hx
    have hxq : x.1 = q := of_decide_eq_true (List.mem_filter.1 hx).2
    have hxk : ¬x.1 = k := by rw [hxq]; exact hne
    simp [Function.comp, hxk]
  · rw [if_neg hany]
    unfold valsAt
    rw [List.filter_append]
    have h2 : [((k, t) : (String × List String) × Track)].filter
        (fun kv => decide (kv.1 = q)) = [] := by
      simp [Ne.symm hne]
    rw [h2, List.append_nil]

theorem keys_upsert (m : List ((String × List String) × Track))
    (k : String × List String) (t : Track) :
    (upsert m k t).map Prod.fst
      = if k ∈ m.map Prod.fst then m.map Prod.fst
        else m.map Prod.fst ++ [k] := by
  unfold upsert
  by_cases hany : m.any (fun kv => decide (kv.1 = k)) = true
  · rw [if_pos hany, if_pos ((any_key_iff m k).1 hany), List.map_map]
    apply List.map_congr_left
    intro x hx
    simp only [Function.comp_apply]
    by_cases hxk : x.1 = k
    · rw [if_pos hxk, hxk]
    · rw [if_neg hxk]
  · rw [if_neg hany, if_neg (fun hmem => hany ((any_key_iff m k).2 hmem))]
    simp

theorem goodMap_upsert (m : List ((String × List String) × Track)) (t : Track)
    (h : goodMap m) : goodMap (upsert m (trackKey t) t) := by
  constructor
  · intro kv hkv
    unfold upsert at hkv
    by_cases hany : m.any (fun kv => decide (kv.1 = trackKey t)) = true
    · rw [if_pos hany] at hkv
      rcases List.mem_map.1 hkv with ⟨x, hxm, rfl⟩
      by_cases hxk : x.1 = trackKey t
      · simp [hxk]
      · simp only [hxk, if_false]
        exact h.1 x hxm
    · rw [if_neg hany] at hkv
      rcases List.mem_append.1 hkv with hx | hx
      · exact h.1 kv hx
      · rw [List.mem_singleton.1 hx]
  · intro k
    by_cases hk : k = trackKey t
    · subst hk
      rw [valsAt_upsert_self m _ t (h.2 _)]
      simp
    · rw [valsAt_upsert_other m _ t k hk]
      exact h.2 k

theorem firstOccur_congr : ∀ (l : List (String × List String))
    (s₁ s₂ : List (String × List String)),
    (∀ x, x ∈ s₁ ↔ x ∈ s₂) → firstOccur s₁ l = firstOccur s₂ l := by
  intro l
  induction l with
  | nil => intro s₁ s₂ h; rfl
  | cons k rest ih =>
    intro s₁ s₂ h
    unfold firstOccur
    by_cases hk : k ∈ s₁
    · rw [if_pos hk, if_pos ((h k).1 hk)]
      exact ih s₁ s₂ h
    · rw [if_neg hk, if_neg (fun hx => hk ((h k).2 hx))]
      rw [ih (k :: s₁) (k :: s₂) (fun x => by simp [h x])]

theorem runNodes_spec : ∀ (nodes : List Json)
    (m m' : List ((String × List String) × Track)),
    goodMap m → runNodes nodes m = some m' →
    goodMap m' ∧
    (∀ k, valsAt m' k
      = ((valsAt m k ++ tracksAt (nodes.filterMap contribOfNode) k).getLast?).toList) ∧
    m'.map Prod.fst
      = m.map Prod.fst ++ firstOccur (m.map Prod.fst)
          ((nodes.filterMap contribOfNode).map trackKey) := by
  intro nodes
  induction nodes with
  | nil =>
    intro m m' hg h
    cases h
    refine ⟨hg, fun k => ?_, by simp [firstOccur]⟩
    simp only [List.filterMap_nil]
    rw [show tracksAt [] k = [] from rfl, List.append_nil]
    exact (getLast?_toList_of_short _ (hg.2 k)).symm
  | cons n rest ih =>
    intro m m' hg h
    rcases htn : trackOfNode n with _ | ot
    · have h2 : (match trackOfNode n with
          | none => none
          | some none => runNodes rest m
          | some (some t) => runNodes rest (upsert m (trackKey t) t)) = some m' := h
      rw [htn] at h2
      exact Option.noConfusion h2
    · cases ot with
      | none =>
        have h2 : (match trackOfNode n with
            | none => none
            | some none => runNodes rest m
            | some (some t) => runNodes rest (upsert m (trackKey t) t)) = some m' := h
        rw [htn] at h2
        have hc : contribOfNode n = none := by unfold contribOfNode; rw [htn]
        obtain ⟨g1, g2, g3⟩ := ih m m' hg h2
        rw [List.filterMap_cons_none hc]
        exact ⟨g1, g2, g3⟩
      | some t =>
        have h2 : (match trackOfNode n with
            | none => none
            | some none => runNodes rest m
            | some (some t) => runNodes rest (upsert m (trackKey t) t)) = some m' := h
        rw [htn] at h2
        have hc : contribOfNode n = some t := by unfold contribOfNode; rw [htn]
        obtain ⟨g1, g2, g3⟩ := ih _ m' (goodMap_upsert m t hg) h2
        rw [List.filterMap_cons_some hc]
        refine ⟨g1, fun k => ?_, ?_⟩
        · rw [g2 k]
          unfold tracksAt
          rw [List.filter_cons]
          by_cases hk : trackKey t = k
          · subst hk
            rw [valsAt_upsert_self m _ t (hg.2 _)]
            rw [if_pos (by simp)]
            rw [getLast?_append_cons, List.singleton_append]
          · rw [valsAt_upsert_other m _ t k (fun he => hk he.symm)]
            simp only [decide_eq_false hk, Bool.false_eq_true, if_false]
        · rw [g3, keys_upsert, List.map_cons]
          by_cases hmem : trackKey t ∈ m.map Prod.fst
          · rw [if_pos hmem]
            conv_rhs => rw [firstOccur]
            rw [if_pos hmem]
          · rw [if_neg hmem]
            conv_rhs => rw [firstOccur]
            rw [if_neg hmem, List.append_assoc, List.singleton_append]
            rw [firstOccur_congr _ (m.map Prod.fst ++ [trackKey t])
              (trackKey t :: m.map Prod.fst) (fun x => by
                rw [List.mem_append, List.mem_singleton, List.mem_cons, or_comm])]

/-- C1: whenever several walked nodes contribute tracks with the same
deduplication key, the extractor's output contains exactly the LAST such
contribution for that key (and nothing for keys never contributed):
last-write-wins per key. -/
theorem extract_dedup_last_write_wins (d : Json) (ts : List Track)
    (h : extract_tracks_from_next_data d = some ts)
    (k : String × List String) :
    tracksAt ts k = ((tracksAt (contribs d) k).getLast?).toList := by
  unfold extract_tracks_from_next_data at h
  rcases hrn : runNodes (walk d) [] with _ | m
  · rw [hrn] at h; cases h
  · rw [hrn] at h
    have hts : ts = m.map Prod.snd := (Option.some.inj h).symm
    have hg0 : goodMap ([] : List ((String × List String) × Track)) :=
      ⟨(by intro kv hkv; cases hkv), fun k => by simp [valsAt]⟩
    obtain ⟨hg, hvals, _⟩ := runNodes_spec (walk d) [] m hg0 hrn
    have hv := hvals k
    rw [show valsAt [] k = [] from rfl, List.nil_append] at hv
    rw [hts]
    unfold tracksAt
    rw [List.filter_map]
    have hfc : m.filter ((fun t => decide (trackKey t = k)) ∘ Prod.snd)
        = m.filter (fun kv => decide (kv.1 = k)) := by
      apply List.filter_congr
      intro x hx
      simp only [Function.comp_apply]
      rw [← hg.1 x hx]
    rw [hfc]
    exact hv

/-- C1 witness: two nodes with the same key (case-insensitive title and
artists) and different uris collapse to one output track holding the later
node's data. -/
theorem extract_dedup_last_write_wins_witness :
    extract_tracks_from_next_data (Json.obj
      [("a", Json.obj [("name", Json.str "Song"),
          ("artists", Json.arr [Json.obj [("name", Json.str "X")]]),
          ("uri", Json.str "spotify:track:111")]),
       ("b", Json.obj [("name", Json.str "SONG"),
          ("artists", Json.arr [Json.obj [("name", Json.str "x")]]),
          ("uri", Json.str "spotify:track:222")])])
      = some [⟨"SONG", ["x"]⟩] ∧
    tracksAt [⟨"SONG", ["x"]⟩] ("song", ["x"])
      = ((tracksAt (contribs (Json.obj
          [("a", Json.obj [("name", Json.str "Song"),
              ("artists", Json.arr [Json.obj [("name", Json.str "X")]]),
              ("uri", Json.str "spotify:track:111")]),
           ("b", Json.obj [("name", Json.str "SONG"),
              ("artists", Json.arr [Json.obj [("name", Json.str "x")]]),
              ("uri", Json.str "spotify:track:222")])]))
          ("song", ["x"])).getLast?).toList :=
  ⟨by decide,
   extract_dedup_last_write_wins _ [⟨"SONG", ["x"]⟩] (by decide) ("song", ["x"])⟩

/-- C9: the extractor's output lists tracks in the order in which their
deduplication keys were FIRST encountered during the walk, even when later
duplicates overwrote a key's data. -/
theorem extract_first_seen_key_order (d : Json) (ts : List Track)
    (h : extract_tracks_from_next_data d = some ts) :
    ts.map trackKey = firstOccur [] ((contribs d).map trackKey) := by
  unfold extract_tracks_from_next_data at h
  rcases hrn : runNodes (walk d) [] with _ | m
  · rw [hrn] at h; cases h
  · rw [hrn] at h
    have hts : ts = m.map Prod.snd := (Option.some.inj h).symm
    have hg0 : goodMap ([] : List ((String × List String) × Track)) :=
      ⟨(by intro kv hkv; cases hkv), fun k => by simp [valsAt]⟩
    obtain ⟨hg, _, hkeys⟩ := runNodes_spec (walk d) [] m hg0 hrn
    simp only [List.map_nil, List.nil_append] at hkeys
    rw [hts, List.map_map]
    have : m.map (trackKey ∘ Prod.snd) = m.map Prod.fst :=
      List.map_congr_left (fun x hx => (hg.1 x hx).symm)
    rw [this, hkeys]
    rfl

/-- C9 witness: keys first seen in the order (alpha, beta), with alpha
later overwritten, come out in first-seen order with the overwritten
data. -/
theorem extract_first_seen_key_order_witness :
    extract_tracks_from_next_data (Json.arr
      [Json.obj [("name", Json.str "Alpha"),
         ("artists", Json.arr [Json.str "P"])],
       Json.obj [("name", Json.str "Beta"),
         ("artists", Json.arr [Json.str "Q"])],
       Json.obj [("name", Json.str "ALPHA"),
         ("artists", Json.arr [Json.str "p"])]])
      = some [⟨"ALPHA", ["p"]⟩, ⟨"Beta", ["Q"]⟩] ∧
    [Track.mk "ALPHA" ["p"], Track.mk "Beta" ["Q"]].map trackKey
      = firstOccur [] ((contribs (Json.arr
          [Json.obj [("name", Json.str "Alpha"),
             ("artists", Json.arr [Json.str "P"])],
           Json.obj [("name", Json.str "Beta"),
             ("artists", Json.arr [Json.str "Q"])],
           Json.obj [("name", Json.str "ALPHA"),
             ("artists", Json.arr [Json.str "p"])]])).map trackKey) :=
  ⟨by decide, extract_first_seen_key_order _ [⟨"ALPHA", ["p"]⟩, ⟨"Beta", ["Q"]⟩]
    (by decide)⟩

end SpotDl
